import Mathlib

/-!
Shallow embedding of `src/project/main.py` (the `/generate-tattoo` FastAPI
handler of the Sharkbyte 2025 tattoo project) and proofs about it.

The program has a single handler.  It reads an uploaded photo, optionally a
reference image, builds a text prompt from the form fields, calls an external
image-generation API, processes the response parts (accumulating text, saving
decodable images under `generated images/generated_image<N>.png` with an
incrementing index, base64-encoding image data), and answers with JSON or an
HTML page; a top-level `try/except` turns every exception into an error page.

External collaborators (PIL decoding, PNG re-encoding, base64, the Gemini
client) are modelled as parameters of the handler functions; everything that
is the program's own logic (string building, filename scanning, part
processing, control flow) is translated literally from the source.
-/

/-! Prompt builder (main.py lines 65-98). -/

/-- Line 66 of the source. -/
def promptLine1 : String :=
  "You generate images of tattoos overlayed on skin of submitted images."

/-- Line 67 of the source. -/
def promptLine2 : String :=
  "Based on the provided input data, create a tattoo design that fits naturally on the body part shown."

/-- Line 68 of the source. -/
def promptLine3 : String := "Input data:"

/-- Line 69 of the source. -/
def promptLine4 : String :=
  "- Photo: An attached image of a body part (can be a hand, arm, leg, face, etc.)"

/-- The fixed preamble: the initial `lines` list of the source (lines 65-70). -/
def preambleLines : List String :=
  [promptLine1, promptLine2, promptLine3, promptLine4]

/-- The reference-image line appended when `reference is not None` (line 75). -/
def referenceLine : String :=
  "- Reference Image: An attached image that serves as the inspiration for the tattoo design. Use it as the primary reference for style/subject where appropriate."

/-- Theme line used when no reference image is present (line 82). -/
def themeGenLine (theme : String) : String :=
  "- Theme (general description of tattoo): " ++ theme

/-- Theme line used when a reference image is present (line 85). -/
def themeSuppLine (theme : String) : String :=
  "- Theme (supplementary details for the tattoo based off the chosen reference image): " ++ theme

/-- Style line (line 87). -/
def styleLine (style : String) : String :=
  "- Style (artistic style of tattoo): " ++ style

/-- Color-mode line (line 89). -/
def colorModeLine (color_mode : String) : String :=
  "- Color Mode (examples: black and white, rainbow color, monochrome, etc.): " ++ color_mode

/-- Size/placement line (line 92). -/
def physicalLine (physical_attributes : String) : String :=
  "- Physical Attributes (size/placement): " ++ physical_attributes

/-- First trailing instruction (line 95). -/
def noTextLine : String :=
  "Do not generate any text in your response. Your response should only consist of a generated image."

/-- Second trailing instruction (line 96). -/
def noModifyLine : String :=
  "Do not modify the original image except to add the tattoo design."

/-- The trailing block: empty line plus the two instructions (lines 94-96). -/
def trailingLines : List String := ["", noTextLine, noModifyLine]

/--
The `lines` list built by `generate_tattoo` (main.py lines 65-96), translated
append by append.  `hasRef` is `reference is not None`; a Python string is
truthy exactly when it is non-empty, so `if theme:` becomes `theme ≠ ""`.
-/
def buildLines (theme style color_mode physical_attributes : String)
    (hasRef : Bool) : List String :=
  let lines := preambleLines
  let lines := if hasRef then lines ++ [referenceLine] else lines
  let lines :=
    if theme ≠ "" then
      if hasRef = false then lines ++ [themeGenLine theme]
      else lines ++ [themeSuppLine theme]
    else lines
  let lines := if style ≠ "" then lines ++ [styleLine style] else lines
  let lines :=
    if color_mode ≠ "" then lines ++ [colorModeLine color_mode] else lines
  let lines :=
    if physical_attributes ≠ "" then
      lines ++ [physicalLine physical_attributes]
    else lines
  let lines := lines ++ [""]
  let lines := lines ++ [noTextLine]
  let lines := lines ++ [noModifyLine]
  lines

/-- Joined prompt: `prompt = "\n".join(lines)` (main.py line 98). -/
def buildPrompt (theme style color_mode physical_attributes : String)
    (hasRef : Bool) : String :=
  String.intercalate "\n" (buildLines theme style color_mode physical_attributes hasRef)

/-! Output filename allocation (main.py lines 136-150).

The handler scans `generated images/` for files `f` with
`f.startswith("generated_image") and f.lower().endswith('.png')`, strips the
fixed front part and the four-character extension (`fn[15:-4]`), keeps the
result when it is all digits, takes the maximum such index, and saves the new
image as `generated_image<max+1>.png`.  Filenames are modelled through their
character lists (`String.data`); the string primitives used by the Python
code are given as explicit character-list functions below so that the
translation is self-contained. -/

/-- Test whether `small` is an initial segment of `big`: the
character-level content of Python's `str.startswith`. -/
def isPre : List Char → List Char → Bool
  | [], _ => true
  | _ :: _, [] => false
  | a :: as, b :: bs => a = b && isPre as bs

/-- Character-level content of Python's `str.endswith`. -/
def isSuf (small big : List Char) : Bool :=
  isPre small.reverse big.reverse

/-- Python's `str.lower`, for the ASCII range that matters here. -/
def lowerChars (l : List Char) : List Char := l.map Char.toLower

/-- The characters of the fixed filename front part `"generated_image"`. -/
def genStem : List Char := "generated_image".data

/-- The characters of the extension `".png"`. -/
def pngExt : List Char := ".png".data

/-- Numeric value of a digit string, as `int(name)` computes it. -/
def digitsVal (l : List Char) : Nat :=
  l.foldl (fun a c => 10 * a + (c.toNat - 48)) 0

/--
The per-filename step of the scan (main.py lines 140-146): `some i` when the
filename passes the `startswith`/`endswith` filter and the stripped middle
`fn[15:-4]` is a non-empty digit string of value `i` (Python's
`str.isdigit` is false on the empty string), otherwise `none`.
-/
def parsedIdx (f : String) : Option Nat :=
  let cs := f.data
  if isPre genStem cs && isSuf pngExt (lowerChars cs) then
    let name := (cs.drop 15).take ((cs.drop 15).length - 4)
    if name ≠ [] && name.all Char.isDigit then some (digitsVal name)
    else none
  else none

/-- One iteration of the scan loop body (main.py lines 142-148):
`if idx > max_idx: max_idx = idx`. -/
def scanStep (m : Nat) (f : String) : Nat :=
  match parsedIdx f with
  | some i => if i > m then i else m
  | none => m

/-- The scan loop of lines 141-148: running maximum of parsed indices. -/
def maxIdx (dir : List String) : Nat :=
  dir.foldl scanStep 0

/-- Next index: `next_idx = max_idx + 1` (main.py line 149). -/
def nextIdx (dir : List String) : Nat := maxIdx dir + 1

/-- Decimal digit character, as Python's decimal formatting produces it. -/
def digitChar (d : Nat) : Char :=
  match d with
  | 0 => '0' | 1 => '1' | 2 => '2' | 3 => '3' | 4 => '4'
  | 5 => '5' | 6 => '6' | 7 => '7' | 8 => '8' | _ => '9'

/-- Decimal digit characters of `n`, most significant first (fuelled). -/
def natDigitsAux : Nat → Nat → List Char
  | 0, _ => []
  | fuel + 1, n =>
    if n = 0 then []
    else natDigitsAux fuel (n / 10) ++ [digitChar (n % 10)]

/-- Decimal rendering of `n`, as the f-string `f"...{next_idx}..."` does. -/
def natDigits (n : Nat) : List Char :=
  if n = 0 then ['0'] else natDigitsAux n n

/-- The filename `f"generated_image{n}.png"` (main.py line 150). -/
def genName (n : Nat) : String :=
  ⟨genStem ++ natDigits n ++ pngExt⟩

/-- The name the handler saves the next image under, given the directory
listing. -/
def savedName (dir : List String) : String := genName (nextIdx dir)

/-! Handler model (main.py lines 43-192).

External collaborators are parameters: `decode` is `PIL.Image.open` on a byte
string (an `Except` whose error is the exception text), `encodePNG` is
`img.save(buffer, "PNG")`, `b64` is `base64.b64encode(...).decode()`, and
`api` is `client.models.generate_content` returning the response's `parts`
list (or raising).  Bytes are lists of naturals. -/

/-- The `inline_data` attribute of a response part; its `data` field may be
`None`. -/
structure InlineData where
  data : Option (List Nat)

/-- One part of the API response: optional `text` and optional
`inline_data`. -/
structure RespPart where
  text : Option String
  inline_data : Option InlineData

/-- Python truthiness of `getattr(part, "text", None)`: present and
non-empty. -/
def textTruthy (p : RespPart) : Bool :=
  match p.text with
  | some t => t ≠ ""
  | none => false

/-- One item of the `contents` list sent to the API: the prompt string or an
image. -/
inductive Content (Img : Type) where
  | text (s : String)
  | image (img : Img)

/-- The mutable state threaded through the part-processing loop (lines
118-158): accumulated text, latest base64 (or `None`), the listing of the
output directory, and the files written so far (name and image). -/
structure GenState (Img : Type) where
  gen_text : String
  gen_b64 : Option String
  dir : List String
  saved : List (String × Img)

/--
The body of the `for part in parts` loop (main.py lines 123-158), translated
case by case: a truthy `text` is appended to the text accumulator; otherwise
a truthy `inline_data` is processed — absent bytes make `Image.open` raise so
the fallback base64-encodes `b"" `; bytes that fail to decode are
base64-encoded raw with no file written; a decodable image is saved under the
next free index and its PNG re-encoding is base64-encoded.
-/
def processPart {Img : Type} (decode : List Nat → Except String Img)
    (encodePNG : Img → List Nat) (b64 : List Nat → String)
    (st : GenState Img) (p : RespPart) : GenState Img :=
  if textTruthy p then
    { st with gen_text := st.gen_text ++ (p.text.getD "") }
  else
    match p.inline_data with
    | none => st
    | some idata =>
      match idata.data with
      | none => { st with gen_b64 := some (b64 []) }
      | some bs =>
        match decode bs with
        | Except.error _ => { st with gen_b64 := some (b64 bs) }
        | Except.ok img =>
          let fname := genName (nextIdx st.dir)
          { st with
            dir := st.dir ++ [fname],
            saved := st.saved ++ [(fname, img)],
            gen_b64 := some (b64 (encodePNG img)) }

/-- The whole part loop, started from the handler's initial state (lines
118-122): empty text, no base64, the current directory listing, nothing
saved. -/
def runParts {Img : Type} (decode : List Nat → Except String Img)
    (encodePNG : Img → List Nat) (b64 : List Nat → String)
    (dir0 : List String) (parts : List RespPart) : GenState Img :=
  parts.foldl (processPart decode encodePNG b64)
    { gen_text := "", gen_b64 := none, dir := dir0, saved := [] }

/-- Python's substring test `pat in s`, on character lists. -/
def hasSub (pat : List Char) : List Char → Bool
  | [] => isPre pat []
  | c :: cs => isPre pat (c :: cs) || hasSub pat cs

/-- Acceptance test `"application/json" in accept` (main.py line 163). -/
def containsSub (s pat : String) : Bool := hasSub pat.data s.data

/-- The request as the handler sees it: the `Accept` header (defaulted to
`""`), the result of `photo.read()`, the optional reference upload with the
result of its `read()`, and the four form strings. -/
structure Req where
  accept : String
  photoRead : Except String (List Nat)
  reference : Option (Except String (List Nat))
  style : String
  theme : String
  color_mode : String
  physical_attributes : String

/-- The `result` dictionary passed to the HTML template (lines 175-183). -/
structure ResultData where
  uploaded_image_base64 : String
  generated_image_base64 : Option String
  style : String
  theme : String
  color_mode : String
  size : String

/-- The handler's response: the JSON branch (line 164) or the rendered page
(lines 171 and 189) with its `result` and `error` slots. -/
inductive Response where
  | json (generated_text : String) (image_base64 : Option String)
  | page (result : Option ResultData) (error : Option String)

/-- The prompt for a request (lines 65-98): built from the four form fields
and `reference is not None`, before the reference bytes are ever read. -/
def promptOf (req : Req) : String :=
  buildPrompt req.theme req.style req.color_mode req.physical_attributes
    req.reference.isSome

/-- The `contents` list sent to the API (main.py lines 101-111): prompt and
photo, then the reference image only when its read and decode both succeed;
any reference failure is swallowed by the inner `try/except`. -/
def contentsOf {Img : Type} (decode : List Nat → Except String Img)
    (req : Req) (user_image : Img) : List (Content Img) :=
  let contents := [Content.text (promptOf req), Content.image user_image]
  match req.reference with
  | none => contents
  | some (Except.error _) => contents
  | some (Except.ok rb) =>
    match decode rb with
    | Except.error _ => contents
    | Except.ok ri => contents ++ [Content.image ri]

/--
The body of the `try` block (main.py lines 55-186): read and decode the
photo, base64 its PNG re-encoding, build the prompt and contents, call the
API, process the parts, then answer JSON or HTML according to the `Accept`
header.  Any raised exception is the `Except.error` case.
-/
def handlerBody {Img : Type} (decode : List Nat → Except String Img)
    (encodePNG : Img → List Nat) (b64 : List Nat → String)
    (api : List (Content Img) → Except String (List RespPart))
    (dir0 : List String) (req : Req) : Except String Response := do
  let image_bytes ← req.photoRead
  let user_image ← decode image_bytes
  let uploaded_image_base64 := b64 (encodePNG user_image)
  let parts ← api (contentsOf decode req user_image)
  let st := runParts decode encodePNG b64 dir0 parts
  if containsSub req.accept "application/json" then
    pure (Response.json st.gen_text st.gen_b64)
  else
    pure (Response.page
      (some
        { uploaded_image_base64 := uploaded_image_base64,
          generated_image_base64 := st.gen_b64,
          style := req.style,
          theme := req.theme,
          color_mode := req.color_mode,
          size := req.physical_attributes })
      none)

/-- The whole handler (lines 54-192): the `try/except` wrapper renders any
exception's text on the page template with no result. -/
def handler {Img : Type} (decode : List Nat → Except String Img)
    (encodePNG : Img → List Nat) (b64 : List Nat → String)
    (api : List (Content Img) → Except String (List RespPart))
    (dir0 : List String) (req : Req) : Response :=
  match handlerBody decode encodePNG b64 api dir0 req with
  | Except.ok r => r
  | Except.error e => Response.page none (some e)

/-! Definitions for the part-processing loop. -/

/-- A part the loop processes through the image branch (main.py line 128):
text not truthy and `inline_data` present. -/
def isImagePart (p : RespPart) : Bool :=
  !textTruthy p && p.inline_data.isSome

/-- Whether processing the part writes a file (main.py lines 133-151): an
image part whose inline bytes are present and decode. -/
def savesFile {Img : Type} (decode : List Nat → Except String Img)
    (p : RespPart) : Bool :=
  !textTruthy p &&
    match p.inline_data with
    | none => false
    | some idata =>
      match idata.data with
      | none => false
      | some bs =>
        match decode bs with
        | Except.ok _ => true
        | Except.error _ => false

/-- The base64 string an image part produces (main.py lines 152-158): the
PNG re-encoding when the bytes decode, the raw bytes otherwise, the empty
byte sequence when the bytes are absent. -/
def imgB64 {Img : Type} (decode : List Nat → Except String Img)
    (encodePNG : Img → List Nat) (b64 : List Nat → String)
    (p : RespPart) : String :=
  match p.inline_data with
  | none => b64 []
  | some idata =>
    match idata.data with
    | none => b64 []
    | some bs =>
      match decode bs with
      | Except.error _ => b64 bs
      | Except.ok img => b64 (encodePNG img)

/-- Loop invariant: the saved filenames are pairwise distinct and all listed
in the directory. -/
def savedNamesInv {Img : Type} (st : GenState Img) : Prop :=
  (st.saved.map Prod.fst).Nodup
    ∧ ∀ nm ∈ st.saved.map Prod.fst, nm ∈ st.dir

/-- A decoder that always succeeds, for concrete instances. -/
def decodeOkU : List Nat → Except String Unit := fun _ => Except.ok ()

/-- A PNG re-encoder for the trivial image type. -/
def pngU : Unit → List Nat := fun _ => []

/-- A base64 encoder for concrete instances. -/
def b64C : List Nat → String := fun _ => "b64"

/-- An API stub returning no parts. -/
def apiEmpty : List (Content Unit) → Except String (List RespPart) :=
  fun _ => Except.ok []

/-- A request whose reference upload's read raises `"rf"`. -/
def reqRefFail : Req :=
  { accept := "", photoRead := Except.ok [],
    reference := some (Except.error "rf"), style := "", theme := "",
    color_mode := "", physical_attributes := "" }

/-- A decoder on byte lists that fails exactly on `[7]`, for concrete
instances. -/
def decNot7 : List Nat → Except String (List Nat) :=
  fun bs => if bs = [7] then Except.error "bad" else Except.ok bs

/-- The identity PNG re-encoder on byte lists. -/
def encId : List Nat → List Nat := fun bs => bs

/-- A text-only part. -/
def partText : RespPart := { text := some "hi", inline_data := none }

/-- An image-only part carrying bytes `[2]`. -/
def partImg2 : RespPart := { text := none, inline_data := some ⟨some [2]⟩ }

/-- An image-only part carrying bytes `[5]`. -/
def partImg5 : RespPart := { text := none, inline_data := some ⟨some [5]⟩ }

/-- A decoder that always fails, for concrete instances. -/
def decodeFailU : List Nat → Except String Unit := fun _ => Except.error "bad"

/-- An image-only part carrying bytes `[7]`. -/
def partImg7 : RespPart := { text := none, inline_data := some ⟨some [7]⟩ }

/-- An API stub returning the single image part `partImg7`. -/
def apiOnePart : List (Content Unit) → Except String (List RespPart) :=
  fun _ => Except.ok [partImg7]

/-- A mixed response: text, an image `decNot7` rejects, two images it
decodes, then text again; the last image part is `partImg5`. -/
def mixedParts : List RespPart :=
  [partText, partImg7, partImg2, partImg5, partText]

/-- A request whose photo read raises `"boom"`. -/
def reqPhotoFail : Req :=
  { accept := "", photoRead := Except.error "boom", reference := none,
    style := "", theme := "", color_mode := "", physical_attributes := "" }

/-- A JSON-accepting request with a trivially readable photo. -/
def reqJson : Req :=
  { accept := "application/json", photoRead := Except.ok [],
    reference := none, style := "", theme := "", color_mode := "",
    physical_attributes := "" }

/-- An initial loop state over an empty directory. -/
def stEmpty : GenState Unit :=
  { gen_text := "", gen_b64 := none, dir := [], saved := [] }

/-- An initial loop state whose directory holds `generated_image3.png`. -/
def stDir3 : GenState Unit :=
  { gen_text := "", gen_b64 := none, dir := ["generated_image3.png"],
    saved := [] }

/-! Lemmas about the filename scan. -/

theorem isPre_append (l t : List Char) : isPre l (l ++ t) = true := by
  induction l with
  | nil => rfl
  | cons a as ih => simp [isPre, ih]

theorem lowerChars_pngExt : lowerChars pngExt = pngExt := by decide

theorem isSuf_append (x : List Char) : isSuf pngExt (x ++ pngExt) = true := by
  simp only [isSuf, List.reverse_append]
  exact isPre_append pngExt.reverse x.reverse

theorem digitChar_isDigit (d : Nat) (h : d < 10) :
    (digitChar d).isDigit = true := by
  interval_cases d <;> decide

theorem digitChar_val (d : Nat) (h : d < 10) :
    (digitChar d).toNat - 48 = d := by
  interval_cases d <;> decide

theorem digitsVal_append_digit (l : List Char) (c : Char) :
    digitsVal (l ++ [c]) = 10 * digitsVal l + (c.toNat - 48) := by
  simp [digitsVal, List.foldl_append]

theorem natDigitsAux_all_digits (fuel n : Nat) :
    (natDigitsAux fuel n).all Char.isDigit = true := by
  induction fuel generalizing n with
  | zero => rfl
  | succ fuel ih =>
    by_cases h : n = 0
    · simp [natDigitsAux, h]
    · simp [natDigitsAux, h, List.all_append, ih,
        digitChar_isDigit (n % 10) (Nat.mod_lt n (by omega))]

theorem natDigitsAux_val (fuel n : Nat) (h : n ≤ fuel) :
    digitsVal (natDigitsAux fuel n) = n := by
  induction fuel generalizing n with
  | zero =>
    have : n = 0 := by omega
    simp [this, natDigitsAux, digitsVal]
  | succ fuel ih =>
    by_cases h0 : n = 0
    · simp [natDigitsAux, h0, digitsVal]
    · rw [natDigitsAux, if_neg h0, digitsVal_append_digit,
        ih (n / 10) (by omega), digitChar_val (n % 10) (Nat.mod_lt n (by omega))]
      omega

theorem natDigits_ne_nil (n : Nat) : natDigits n ≠ [] := by
  by_cases h : n = 0
  · simp [natDigits, h]
  · obtain ⟨m, rfl⟩ : ∃ m, n = m + 1 := ⟨n - 1, by omega⟩
    simp [natDigits, natDigitsAux]

theorem natDigits_all_digits (n : Nat) :
    (natDigits n).all Char.isDigit = true := by
  by_cases h : n = 0
  · simp [natDigits, h]
  · simp [natDigits, h, natDigitsAux_all_digits]

theorem natDigits_val (n : Nat) : digitsVal (natDigits n) = n := by
  by_cases h : n = 0
  · simp [natDigits, h, digitsVal]
  · simp [natDigits, h, natDigitsAux_val n n (Nat.le_refl n)]

/-- A filename the handler writes parses back to exactly its index. -/
theorem parsedIdx_genName (n : Nat) : parsedIdx (genName n) = some n := by
  have hdata : (genName n).data = genStem ++ (natDigits n ++ pngExt) := by
    simp [genName]
  have hpre : isPre genStem (genName n).data = true := by
    rw [hdata]; exact isPre_append _ _
  have hsuf : isSuf pngExt (lowerChars (genName n).data) = true := by
    rw [hdata, ← List.append_assoc]
    simp only [lowerChars, List.map_append]
    rw [show List.map Char.toLower pngExt = pngExt from lowerChars_pngExt]
    exact isSuf_append _
  have hdrop : (genName n).data.drop 15 = natDigits n ++ pngExt := by
    rw [hdata]
    exact List.drop_left' (by decide)
  have hname :
      ((genName n).data.drop 15).take (((genName n).data.drop 15).length - 4) =
        natDigits n := by
    rw [hdrop]
    have hlen : (natDigits n ++ pngExt).length - 4 = (natDigits n).length := by
      simp [List.length_append, pngExt]
    rw [hlen]
    exact List.take_left _ _
  rw [parsedIdx]
  simp only [hpre, hsuf, Bool.and_self, if_true, hname]
  rw [if_pos (by simp [natDigits_ne_nil n, natDigits_all_digits n]),
    natDigits_val]

theorem scanStep_le (m : Nat) (f : String) : m ≤ scanStep m f := by
  rw [scanStep]
  cases parsedIdx f with
  | none => exact Nat.le_refl m
  | some i => dsimp only; split <;> omega

theorem scanStep_idx_le (m : Nat) (f : String) (i : Nat)
    (h : parsedIdx f = some i) : i ≤ scanStep m f := by
  rw [scanStep, h]; dsimp only; split <;> omega

theorem foldl_scanStep_le (dir : List String) (a : Nat) :
    a ≤ dir.foldl scanStep a := by
  induction dir generalizing a with
  | nil => exact Nat.le_refl a
  | cons f fs ih => exact Nat.le_trans (scanStep_le a f) (ih (scanStep a f))

/-- Every index parsed from a listed filename is bounded by the scan's
maximum. -/
theorem parsedIdx_le_maxIdx (dir : List String) (f : String) (i : Nat)
    (hmem : f ∈ dir) (hp : parsedIdx f = some i) : i ≤ maxIdx dir := by
  rw [maxIdx]
  generalize ha : (0 : Nat) = a
  clear ha
  induction dir generalizing a with
  | nil => cases hmem
  | cons g gs ih =>
    rcases List.mem_cons.mp hmem with rfl | hmem'
    · exact Nat.le_trans (scanStep_idx_le a f i hp) (foldl_scanStep_le gs _)
    · exact ih hmem' _

/-- The freshly allocated filename is not among the existing ones. -/
theorem genName_nextIdx_not_mem (dir : List String) :
    genName (nextIdx dir) ∉ dir := by
  intro hmem
  have h := parsedIdx_le_maxIdx dir _ _ hmem (parsedIdx_genName (nextIdx dir))
  rw [nextIdx] at h
  omega

/-- The scan computes the maximum of all parsed indices (zero when none). -/
theorem foldl_scanStep_eq (dir : List String) (a : Nat) :
    dir.foldl scanStep a =
      max a ((dir.filterMap parsedIdx).foldr max 0) := by
  induction dir generalizing a with
  | nil => simp
  | cons f fs ih =>
    rw [List.foldl_cons, ih, List.filterMap_cons]
    cases hp : parsedIdx f with
    | none => rw [scanStep, hp]
    | some i =>
      rw [scanStep, hp]
      dsimp only
      rw [List.foldr_cons]
      split <;> omega

/--
Structure lemma for the prompt builder: the sequentially built `lines` list
equals the compositional form described in the specification (fixed preamble,
then each optional line exactly when its field is non-empty, in the fixed
order, then the trailing block).
-/
theorem buildLines_eq (theme style color_mode physical_attributes : String)
    (hasRef : Bool) :
    buildLines theme style color_mode physical_attributes hasRef =
      preambleLines
        ++ (if hasRef then [referenceLine] else [])
        ++ (if theme ≠ "" then
              [if hasRef then themeSuppLine theme else themeGenLine theme]
            else [])
        ++ (if style ≠ "" then [styleLine style] else [])
        ++ (if color_mode ≠ "" then [colorModeLine color_mode] else [])
        ++ (if physical_attributes ≠ "" then
              [physicalLine physical_attributes]
            else [])
        ++ trailingLines := by
  cases hasRef <;>
    by_cases h1 : theme = "" <;>
    by_cases h2 : style = "" <;>
    by_cases h3 : color_mode = "" <;>
    by_cases h4 : physical_attributes = "" <;>
    simp [buildLines, h1, h2, h3, h4, preambleLines, trailingLines]

/-- A part the loop does not treat as an image leaves base64, saved files
and directory untouched. -/
theorem processPart_nonimage {Img : Type}
    (decode : List Nat → Except String Img) (encodePNG : Img → List Nat)
    (b64 : List Nat → String) (st : GenState Img) (p : RespPart)
    (h : isImagePart p = false) :
    (processPart decode encodePNG b64 st p).gen_b64 = st.gen_b64
    ∧ (processPart decode encodePNG b64 st p).saved = st.saved
    ∧ (processPart decode encodePNG b64 st p).dir = st.dir := by
  rw [isImagePart] at h
  by_cases ht : textTruthy p
  · simp [processPart, ht]
  · have ht' : textTruthy p = false := by simpa using ht
    have hid : p.inline_data = none := by
      cases hid : p.inline_data with
      | none => rfl
      | some idata =>
        rw [ht', hid] at h
        simp at h
    simp [processPart, ht', hid]

/-- An image part always overwrites the base64 output with the value it
produces, whatever the current state. -/
theorem processPart_image_b64 {Img : Type}
    (decode : List Nat → Except String Img) (encodePNG : Img → List Nat)
    (b64 : List Nat → String) (st : GenState Img) (p : RespPart)
    (h : isImagePart p = true) :
    (processPart decode encodePNG b64 st p).gen_b64 =
      some (imgB64 decode encodePNG b64 p) := by
  rw [isImagePart, Bool.and_eq_true] at h
  obtain ⟨ht, hs⟩ := h
  have ht' : textTruthy p = false := by simpa using ht
  obtain ⟨idata, hid⟩ := Option.isSome_iff_exists.mp hs
  cases hdata : idata.data with
  | none => simp [processPart, imgB64, ht', hid, hdata]
  | some bs =>
    cases hdec : decode bs with
    | error e => simp [processPart, imgB64, ht', hid, hdata, hdec]
    | ok img => simp [processPart, imgB64, ht', hid, hdata, hdec]

/-- The loop body saves exactly one file when the part is a decodable image
part, and none otherwise. -/
theorem processPart_saved_grow {Img : Type}
    (decode : List Nat → Except String Img) (encodePNG : Img → List Nat)
    (b64 : List Nat → String) (st : GenState Img) (p : RespPart) :
    (processPart decode encodePNG b64 st p).saved.length =
      st.saved.length + (if savesFile decode p then 1 else 0) := by
  by_cases ht : textTruthy p
  · simp [processPart, savesFile, ht]
  · have ht' : textTruthy p = false := by simpa using ht
    cases hid : p.inline_data with
    | none => simp [processPart, savesFile, ht', hid]
    | some idata =>
      cases hdata : idata.data with
      | none => simp [processPart, savesFile, ht', hid, hdata]
      | some bs =>
        cases hdec : decode bs with
        | error e => simp [processPart, savesFile, ht', hid, hdata, hdec]
        | ok img => simp [processPart, savesFile, ht', hid, hdata, hdec]

/-- The loop body preserves the invariant, whatever the part. -/
theorem processPart_inv {Img : Type} (decode : List Nat → Except String Img)
    (encodePNG : Img → List Nat) (b64 : List Nat → String)
    (st : GenState Img) (p : RespPart) (h : savedNamesInv st) :
    savedNamesInv (processPart decode encodePNG b64 st p) := by
  obtain ⟨hnd, hmem⟩ := h
  rw [processPart]
  split
  · exact ⟨hnd, hmem⟩
  · split
    · exact ⟨hnd, hmem⟩
    · split
      · exact ⟨hnd, hmem⟩
      · split
        · exact ⟨hnd, hmem⟩
        · rename_i img heq
          have hfn : genName (nextIdx st.dir) ∉ st.saved.map Prod.fst :=
            fun hin => genName_nextIdx_not_mem st.dir (hmem _ hin)
          refine ⟨?_, ?_⟩
          · simp only [List.map_append, List.map_cons, List.map_nil]
            refine List.Nodup.append hnd (List.nodup_singleton _) ?_
            intro x hx hx'
            rw [List.mem_singleton] at hx'
            subst hx'
            exact hfn hx
          · intro nm hnm
            simp only [List.map_append, List.map_cons, List.map_nil] at hnm
            rcases List.mem_append.mp hnm with h1 | h2
            · exact List.mem_append.mpr (Or.inl (hmem nm h1))
            · exact List.mem_append.mpr (Or.inr h2)

/-- Folding the loop preserves the filename invariant. -/
theorem foldl_inv {Img : Type} (decode : List Nat → Except String Img)
    (encodePNG : Img → List Nat) (b64 : List Nat → String) :
    ∀ (parts : List RespPart) (st : GenState Img), savedNamesInv st →
      savedNamesInv (parts.foldl (processPart decode encodePNG b64) st) := by
  intro parts
  induction parts with
  | nil => exact fun st h => h
  | cons q qs ih =>
    intro st h
    exact ih _ (processPart_inv decode encodePNG b64 st q h)

/-- Folding the loop saves exactly one file per decodable image part. -/
theorem foldl_saved_length {Img : Type}
    (decode : List Nat → Except String Img) (encodePNG : Img → List Nat)
    (b64 : List Nat → String) :
    ∀ (parts : List RespPart) (st : GenState Img),
      (parts.foldl (processPart decode encodePNG b64) st).saved.length =
        st.saved.length + parts.countP (fun q => savesFile decode q) := by
  intro parts
  induction parts with
  | nil => intro st; simp
  | cons q qs ih =>
    intro st
    rw [List.foldl_cons, ih, processPart_saved_grow decode encodePNG b64 st q,
      List.countP_cons]
    by_cases hs : savesFile decode q
    · simp only [hs, if_true]
      omega
    · simp only [hs, if_false]
      omega

/-- Parts the loop does not treat as images never change the base64
output. -/
theorem foldl_b64_nonimage {Img : Type}
    (decode : List Nat → Except String Img) (encodePNG : Img → List Nat)
    (b64 : List Nat → String) :
    ∀ (parts : List RespPart) (st : GenState Img),
      (∀ q ∈ parts, isImagePart q = false) →
      (parts.foldl (processPart decode encodePNG b64) st).gen_b64 =
        st.gen_b64 := by
  intro parts
  induction parts with
  | nil => intro st _; rfl
  | cons q qs ih =>
    intro st hall
    rw [List.foldl_cons,
      ih _ (fun r hr => hall r (List.mem_cons_of_mem _ hr)),
      (processPart_nonimage decode encodePNG b64 st q
        (hall q (List.mem_cons_self q qs))).1]

/-! Claim theorems. -/

/--
C1: for every combination of empty and non-empty theme, style, color_mode and
physical_attributes, and for both presence and absence of a reference image,
the prompt builder produces exactly the specified lines in the specified
order — fixed preamble, reference line iff a reference image is present,
theme line iff theme is non-empty, style line iff style is non-empty,
color-mode line iff color_mode is non-empty, size/placement line iff
physical_attributes is non-empty, trailing instruction pair — joined by
newlines, omitting the line for every empty field, with no error condition
(the builder is a total function).
-/
theorem prompt_builder_spec (theme style color_mode physical_attributes : String)
    (hasRef : Bool) :
    buildLines theme style color_mode physical_attributes hasRef =
      preambleLines
        ++ (if hasRef then [referenceLine] else [])
        ++ (if theme ≠ "" then
              [if hasRef then themeSuppLine theme else themeGenLine theme]
            else [])
        ++ (if style ≠ "" then [styleLine style] else [])
        ++ (if color_mode ≠ "" then [colorModeLine color_mode] else [])
        ++ (if physical_attributes ≠ "" then
              [physicalLine physical_attributes]
            else [])
        ++ trailingLines
    ∧ buildPrompt theme style color_mode physical_attributes hasRef =
        String.intercalate "\n"
          (buildLines theme style color_mode physical_attributes hasRef) :=
  ⟨buildLines_eq theme style color_mode physical_attributes hasRef, rfl⟩

/--
C2: the next saved file's numeric index is one more than the maximum index
among files matching the `generated_image<digits>.png` pattern in the scanned
directory listing: with `generated_image3.png` and `generated_image7.png`
present the next file is `generated_image8.png`, with an empty directory it
is `generated_image1.png`, and in general the allocated index is the maximum
parsed index plus one.
-/
theorem next_index_allocation :
    savedName ["generated_image3.png", "generated_image7.png"] =
        "generated_image8.png"
    ∧ savedName [] = "generated_image1.png"
    ∧ ∀ dir : List String,
        nextIdx dir = (dir.filterMap parsedIdx).foldr max 0 + 1 := by
  refine ⟨by decide, by decide, fun dir => ?_⟩
  rw [nextIdx, maxIdx, foldl_scanStep_eq]
  simp

/--
C3: if any exception is raised during request handling, the handler returns
the page template populated with the exception's textual description as the
error string and no result; when no exception is raised it returns the
computed response; in both cases a response is produced and no raw fault
propagates.
-/
theorem error_page_on_exception {Img : Type}
    (decode : List Nat → Except String Img) (encodePNG : Img → List Nat)
    (b64 : List Nat → String)
    (api : List (Content Img) → Except String (List RespPart))
    (dir0 : List String) (req : Req) :
    (∀ e, handlerBody decode encodePNG b64 api dir0 req = Except.error e →
        handler decode encodePNG b64 api dir0 req =
          Response.page none (some e))
    ∧ (∀ r, handlerBody decode encodePNG b64 api dir0 req = Except.ok r →
        handler decode encodePNG b64 api dir0 req = r) := by
  constructor <;> intro x h <;> simp [handler, h]

/-- Closed instance of C3: a request whose photo read raises `"boom"` gets
the error page carrying that text, and a trivial successful request gets its
computed response. -/
theorem error_page_on_exception_witness :
    handler decodeOkU pngU b64C apiEmpty [] reqPhotoFail =
      Response.page none (some "boom") :=
  (error_page_on_exception decodeOkU pngU b64C apiEmpty []
      reqPhotoFail).1 "boom" rfl

/--
C4: with a non-empty theme, the emitted theme line uses the supplementary
phrasing exactly when a reference image is present and the general
description phrasing exactly when it is absent; the surrounding lines are
unchanged.
-/
theorem theme_line_phrasing (theme style color_mode physical_attributes : String)
    (h : theme ≠ "") :
    buildLines theme style color_mode physical_attributes true =
      preambleLines ++ [referenceLine, themeSuppLine theme]
        ++ (if style ≠ "" then [styleLine style] else [])
        ++ (if color_mode ≠ "" then [colorModeLine color_mode] else [])
        ++ (if physical_attributes ≠ "" then
              [physicalLine physical_attributes]
            else [])
        ++ trailingLines
    ∧ buildLines theme style color_mode physical_attributes false =
      preambleLines ++ [themeGenLine theme]
        ++ (if style ≠ "" then [styleLine style] else [])
        ++ (if color_mode ≠ "" then [colorModeLine color_mode] else [])
        ++ (if physical_attributes ≠ "" then
              [physicalLine physical_attributes]
            else [])
        ++ trailingLines := by
  constructor <;> · rw [buildLines_eq]; simp [h]

/--
C5: a request whose `Accept` header contains `application/json`, whose photo
reads and decodes, and whose API call succeeds with a single image-only part,
gets the JSON response with empty `generated_text` and a non-null
`image_base64`.
-/
theorem json_response_single_image {Img : Type}
    (decode : List Nat → Except String Img) (encodePNG : Img → List Nat)
    (b64 : List Nat → String)
    (api : List (Content Img) → Except String (List RespPart))
    (dir0 : List String) (req : Req) (pbs : List Nat) (img : Img)
    (p : RespPart) (bs : List Nat)
    (hphoto : req.photoRead = Except.ok pbs)
    (hdec : decode pbs = Except.ok img)
    (haccept : containsSub req.accept "application/json" = true)
    (hapi : api (contentsOf decode req img) = Except.ok [p])
    (htext : textTruthy p = false)
    (hinline : p.inline_data = some ⟨some bs⟩) :
    ∃ s, handler decode encodePNG b64 api dir0 req =
      Response.json "" (some s) := by
  unfold handler handlerBody
  rw [hphoto]
  simp only [Bind.bind, Except.bind, hdec, hapi]
  simp only [runParts, List.foldl_cons, List.foldl_nil, processPart, htext,
    Bool.false_eq_true, if_false, hinline]
  cases hdb : decode bs with
  | error e =>
    simp only [haccept, if_true, Pure.pure, Except.pure]
    exact ⟨b64 bs, rfl⟩
  | ok genImg =>
    simp only [haccept, if_true, Pure.pure, Except.pure]
    exact ⟨b64 (encodePNG genImg), rfl⟩

/-- Closed instance of C5: one image-only part, JSON `Accept` header. -/
theorem json_response_single_image_witness :
    ∃ s, handler decodeOkU pngU b64C apiOnePart [] reqJson =
      Response.json "" (some s) :=
  json_response_single_image decodeOkU pngU b64C apiOnePart [] reqJson
    [] () partImg7 [7] rfl rfl (by decide) rfl rfl rfl

/--
C6: a response part carrying inline image bytes that fail to decode still
yields a non-null `image_base64` equal to the base64 encoding of those exact
raw bytes — or of the empty byte sequence when the bytes are absent — and no
file is persisted for that part (directory listing, saved files and text are
unchanged).
-/
theorem undecodable_image_fallback {Img : Type}
    (decode : List Nat → Except String Img) (encodePNG : Img → List Nat)
    (b64 : List Nat → String) (st : GenState Img) (p : RespPart)
    (bs : List Nat) (err : String) (htext : textTruthy p = false) :
    (p.inline_data = some ⟨some bs⟩ → decode bs = Except.error err →
      processPart decode encodePNG b64 st p =
        { st with gen_b64 := some (b64 bs) })
    ∧ (p.inline_data = some ⟨none⟩ →
      processPart decode encodePNG b64 st p =
        { st with gen_b64 := some (b64 []) }) := by
  constructor
  · intro h1 h2
    simp [processPart, htext, h1, h2]
  · intro h1
    simp [processPart, htext, h1]

/-- Closed instance of C6: bytes `[7]` with a failing decoder. -/
theorem undecodable_image_fallback_witness :
    processPart decodeFailU pngU b64C stEmpty partImg7 =
      { gen_text := "", gen_b64 := some (b64C [7]), dir := [], saved := [] } :=
  (undecodable_image_fallback decodeFailU pngU b64C stEmpty partImg7
      [7] "bad" rfl).1 rfl rfl

/--
C7: when the reference upload's read or decode fails, the failure is
swallowed: the contents list passed to the API is exactly `[prompt, photo]`
with no reference entry, and the request does not abort — if photo reading,
photo decoding and the API call succeed, the whole body succeeds.
-/
theorem reference_failure_swallowed {Img : Type}
    (decode : List Nat → Except String Img) (encodePNG : Img → List Nat)
    (b64 : List Nat → String)
    (api : List (Content Img) → Except String (List RespPart))
    (dir0 : List String) (req : Req) (img : Img)
    (refr : Except String (List Nat)) (href : req.reference = some refr)
    (hfail : (∃ e, refr = Except.error e)
      ∨ (∃ rb e, refr = Except.ok rb ∧ decode rb = Except.error e)) :
    contentsOf decode req img =
      [Content.text (promptOf req), Content.image img]
    ∧ (∀ pbs, req.photoRead = Except.ok pbs → decode pbs = Except.ok img →
        ∀ parts, api (contentsOf decode req img) = Except.ok parts →
        ∃ resp, handlerBody decode encodePNG b64 api dir0 req =
          Except.ok resp) := by
  have hcont : contentsOf decode req img =
      [Content.text (promptOf req), Content.image img] := by
    rw [contentsOf, href]
    rcases hfail with ⟨e, rfl⟩ | ⟨rb, e, rfl, hd⟩
    · rfl
    · simp [hd]
  refine ⟨hcont, ?_⟩
  intro pbs h1 h2 parts h3
  unfold handlerBody
  rw [h1]
  simp only [Bind.bind, Except.bind, h2, h3]
  split <;> exact ⟨_, rfl⟩

/-- Closed instance of C7: the reference read raises, everything else
succeeds. -/
theorem reference_failure_swallowed_witness :
    (contentsOf decodeOkU reqRefFail () =
      [Content.text (promptOf reqRefFail), Content.image ()])
    ∧ (∀ pbs, reqRefFail.photoRead = Except.ok pbs →
        decodeOkU pbs = Except.ok () →
        ∀ parts, apiEmpty (contentsOf decodeOkU reqRefFail ()) =
          Except.ok parts →
        ∃ resp, handlerBody decodeOkU pngU b64C apiEmpty [] reqRefFail =
          Except.ok resp) :=
  reference_failure_swallowed decodeOkU pngU b64C apiEmpty [] reqRefFail ()
    (Except.error "rf") rfl (Or.inl ⟨"rf", rfl⟩)

/--
C8: when a decodable image part is saved, the chosen index strictly exceeds
every index parsed from the existing directory listing, the new filename is
not among the existing ones (nothing is overwritten), and the listing is only
extended — every pre-existing file is still listed and nothing is deleted.
-/
theorem save_never_overwrites {Img : Type}
    (decode : List Nat → Except String Img) (encodePNG : Img → List Nat)
    (b64 : List Nat → String) (st : GenState Img) (p : RespPart)
    (bs : List Nat) (img : Img) (htext : textTruthy p = false)
    (hinline : p.inline_data = some ⟨some bs⟩)
    (hdec : decode bs = Except.ok img) :
    (∀ f ∈ st.dir, ∀ i, parsedIdx f = some i → i < nextIdx st.dir)
    ∧ genName (nextIdx st.dir) ∉ st.dir
    ∧ (processPart decode encodePNG b64 st p).dir =
        st.dir ++ [genName (nextIdx st.dir)]
    ∧ (processPart decode encodePNG b64 st p).saved =
        st.saved ++ [(genName (nextIdx st.dir), img)] := by
  refine ⟨?_, genName_nextIdx_not_mem st.dir, ?_, ?_⟩
  · intro f hf i hp
    have := parsedIdx_le_maxIdx st.dir f i hf hp
    rw [nextIdx]
    omega
  · simp [processPart, htext, hinline, hdec]
  · simp [processPart, htext, hinline, hdec]

/-- Closed instance of C8: the directory already holds
`generated_image3.png`; the new file is `generated_image4.png`. -/
theorem save_never_overwrites_witness :
    (∀ f ∈ stDir3.dir, ∀ i, parsedIdx f = some i →
      i < nextIdx stDir3.dir)
    ∧ genName (nextIdx stDir3.dir) ∉ stDir3.dir
    ∧ (processPart decodeOkU pngU b64C stDir3 partImg7).dir =
        stDir3.dir ++ [genName (nextIdx stDir3.dir)]
    ∧ (processPart decodeOkU pngU b64C stDir3 partImg7).saved =
        stDir3.saved ++ [(genName (nextIdx stDir3.dir), ())] :=
  save_never_overwrites decodeOkU pngU b64C stDir3 partImg7 [7] ()
    rfl rfl rfl

/--
C10: the prompt depends only on whether the reference upload is present, not
on its bytes or their decodability: two requests with the same form fields
and both with a reference upload (whatever its read result) get the same
prompt, that prompt's lines contain the reference-inspiration line, and a
non-empty theme uses the supplementary phrasing.
-/
theorem prompt_independent_of_reference_decode (req req' : Req)
    (htheme : req.theme = req'.theme) (hstyle : req.style = req'.style)
    (hcm : req.color_mode = req'.color_mode)
    (hpa : req.physical_attributes = req'.physical_attributes)
    (h1 : req.reference.isSome = true) (h2 : req'.reference.isSome = true) :
    promptOf req = promptOf req'
    ∧ referenceLine ∈
        buildLines req.theme req.style req.color_mode req.physical_attributes
          true
    ∧ (req.theme ≠ "" → themeSuppLine req.theme ∈
        buildLines req.theme req.style req.color_mode req.physical_attributes
          true) := by
  refine ⟨?_, ?_, ?_⟩
  · rw [promptOf, promptOf, htheme, hstyle, hcm, hpa, h1, h2]
  · rw [buildLines_eq]
    simp
  · intro h
    rw [buildLines_eq]
    simp [h]

/-- Closed instance of C10: same fields, one reference that reads fine and
one whose read raises. -/
theorem prompt_independent_of_reference_decode_witness :
    promptOf
        { accept := "", photoRead := Except.ok [],
          reference := some (Except.ok [1]), style := "s", theme := "dragon",
          color_mode := "", physical_attributes := "" } =
      promptOf
        { accept := "", photoRead := Except.ok [],
          reference := some (Except.error "rf"), style := "s",
          theme := "dragon", color_mode := "", physical_attributes := "" }
    ∧ referenceLine ∈ buildLines "dragon" "s" "" "" true
    ∧ (("dragon" : String) ≠ "" →
        themeSuppLine "dragon" ∈ buildLines "dragon" "s" "" "" true) :=
  prompt_independent_of_reference_decode
    { accept := "", photoRead := Except.ok [],
      reference := some (Except.ok [1]), style := "s", theme := "dragon",
      color_mode := "", physical_attributes := "" }
    { accept := "", photoRead := Except.ok [],
      reference := some (Except.error "rf"), style := "s", theme := "dragon",
      color_mode := "", physical_attributes := "" }
    rfl rfl rfl rfl rfl rfl

/--
C9: for any API response parts list — decodable image parts possibly mixed
with text parts and undecodable image parts — each decodable image part is
persisted to its own file (exactly one saved file per decodable image part,
with pairwise-distinct filenames), and the `image_base64` value returned to
the caller is the one produced by the last image part processed, overwriting
the base64 of every earlier image part.
-/
theorem multiple_images_last_wins {Img : Type}
    (decode : List Nat → Except String Img) (encodePNG : Img → List Nat)
    (b64 : List Nat → String) (dir0 : List String)
    (parts l₁ l₂ : List RespPart) (p : RespPart) :
    (runParts decode encodePNG b64 dir0 parts).saved.length =
        parts.countP (fun q => savesFile decode q)
    ∧ ((runParts decode encodePNG b64 dir0 parts).saved.map Prod.fst).Nodup
    ∧ (parts = l₁ ++ p :: l₂ → isImagePart p = true →
        (∀ q ∈ l₂, isImagePart q = false) →
        (runParts decode encodePNG b64 dir0 parts).gen_b64 =
          some (imgB64 decode encodePNG b64 p)) := by
  refine ⟨?_, ?_, ?_⟩
  · rw [runParts, foldl_saved_length]
    simp
  · exact (foldl_inv decode encodePNG b64 parts
      { gen_text := "", gen_b64 := none, dir := dir0, saved := [] }
      ⟨List.nodup_nil, by simp⟩).1
  · intro hparts himg hl2
    subst hparts
    rw [runParts, List.foldl_append, List.foldl_cons,
      foldl_b64_nonimage decode encodePNG b64 l₂ _ hl2,
      processPart_image_b64 decode encodePNG b64 _ p himg]

/-- Closed instance of C9: a mixed five-part response (text, an image the
decoder rejects, two images it decodes, text); two files are saved under
distinct names and the base64 is the last image part's. -/
theorem multiple_images_last_wins_witness :
    (runParts decNot7 encId b64C [] mixedParts).saved.length = 2
    ∧ ((runParts decNot7 encId b64C [] mixedParts).saved.map Prod.fst).Nodup
    ∧ (runParts decNot7 encId b64C [] mixedParts).gen_b64 =
        some (imgB64 decNot7 encId b64C partImg5) := by
  obtain ⟨h1, h2, h3⟩ :=
    multiple_images_last_wins decNot7 encId b64C [] mixedParts
      [partText, partImg7, partImg2] [partText] partImg5
  exact ⟨h1.trans (by decide), h2, h3 rfl rfl (by decide)⟩

/-- Closed instance of C4 at theme `"dragon"` with the other fields empty. -/
theorem theme_line_phrasing_witness :
    ("dragon" : String) ≠ ""
    ∧ (buildLines "dragon" "" "" "" true =
        preambleLines ++ [referenceLine, themeSuppLine "dragon"]
          ++ (if ("" : String) ≠ "" then [styleLine ""] else [])
          ++ (if ("" : String) ≠ "" then [colorModeLine ""] else [])
          ++ (if ("" : String) ≠ "" then [physicalLine ""] else [])
          ++ trailingLines
      ∧ buildLines "dragon" "" "" "" false =
        preambleLines ++ [themeGenLine "dragon"]
          ++ (if ("" : String) ≠ "" then [styleLine ""] else [])
          ++ (if ("" : String) ≠ "" then [colorModeLine ""] else [])
          ++ (if ("" : String) ≠ "" then [physicalLine ""] else [])
          ++ trailingLines) :=
  ⟨by decide, theme_line_phrasing "dragon" "" "" "" (by decide)⟩
